import Mathlib

/-! corelayout_nav: page navigation controller and entry gate

A shallow embedding of `src/CoreLayout.logic.js` (page-set validation and the
active-page state) and `src/CoreLayoutGate.logic.js` (the entry gate), followed
by the properties of the specification that were checked against them.

React hooks are embedded by explicit state passing: a `useState` cell is a
field of a state record, a `useEffect` body is a function from state to state,
and a callback supplied by the host (`onPageChange`) is a log of the arguments
it was invoked with.
-/

namespace CoreLayout

/-! ## JavaScript values -/

/-- A JavaScript number. Finite doubles are embedded in the rationals (so `-0`
and `0` coincide); `NaN` and the two infinities are kept apart because the
comparisons of the source treat them differently. -/
inductive JsNum where
  | fin (q : ℚ)
  | nan
  | posInf
  | negInf
  deriving DecidableEq

namespace JsNum

/-- The number that a non-negative integer (an array length, an array index)
denotes. -/
def ofNat (n : Nat) : JsNum := .fin (n : ℚ)

/-- The relational operator `a < b` on numbers: false as soon as one side is `NaN`. -/
def lt : JsNum → JsNum → Bool
  | .nan, _ => false
  | _, .nan => false
  | .fin a, .fin b => decide (a < b)
  | .fin _, .posInf => true
  | .fin _, .negInf => false
  | .posInf, _ => false
  | .negInf, .negInf => false
  | .negInf, _ => true

/-- The relational operator `a <= b` on numbers: false as soon as one side is `NaN`. -/
def le : JsNum → JsNum → Bool
  | .nan, _ => false
  | _, .nan => false
  | .fin a, .fin b => decide (a ≤ b)
  | .fin _, .posInf => true
  | .fin _, .negInf => false
  | .posInf, .posInf => true
  | .posInf, _ => false
  | .negInf, _ => true

/-- The relational operator `a >= b`, which JavaScript evaluates as `b <= a`. -/
def ge (a b : JsNum) : Bool := le b a

end JsNum

/-- The results of the `typeof` operator that the source distinguishes. -/
inductive JsType where
  | undefined
  | object
  | boolean
  | number
  | string
  | function
  deriving DecidableEq

/-- A JavaScript value as far as the navigation code inspects it. Functions
and objects other than page descriptors are bare references: the source only
asks for their `typeof` and their truthiness. -/
inductive JsVal where
  | undefined
  | null
  | bool (b : Bool)
  | num (n : JsNum)
  | str (s : String)
  | func (ref : Nat)
  | object (ref : Nat)
  deriving DecidableEq

namespace JsVal

/-- The `typeof` operator. -/
def typeOf : JsVal → JsType
  | .undefined => .undefined
  | .null => .object
  | .bool _ => .boolean
  | .num _ => .number
  | .str _ => .string
  | .func _ => .function
  | .object _ => .object

/-- Truthiness, as tested by `&&`, `!` and `if`. -/
def truthy : JsVal → Bool
  | .undefined => false
  | .null => false
  | .bool b => b
  | .num (.fin q) => decide (q ≠ 0)
  | .num .nan => false
  | .num _ => true
  | .str s => decide (s ≠ "")
  | .func _ => true
  | .object _ => true

end JsVal

/-! ## Strings -/

/-- The code points that `String.prototype.trim` removes: ECMAScript
`WhiteSpace` (TAB, VT, FF, ZWNBSP and the Unicode space separators) and
`LineTerminator` (LF, CR, LS, PS). -/
def isJsWhiteSpace (c : Char) : Bool :=
  let n := c.toNat
  n = 0x09 || n = 0x0A || n = 0x0B || n = 0x0C || n = 0x0D || n = 0x20 || n = 0xA0
    || n = 0x1680 || (0x2000 ≤ n && n ≤ 0x200A) || n = 0x2028 || n = 0x2029
    || n = 0x202F || n = 0x205F || n = 0x3000 || n = 0xFEFF

/-- The method `String.prototype.trim` on the characters of a string. -/
def trimChars (cs : List Char) : List Char :=
  ((cs.dropWhile isJsWhiteSpace).reverse.dropWhile isJsWhiteSpace).reverse

/-- The method `String.prototype.trim`. -/
def jsTrim (s : String) : String := String.mk (trimChars s.data)

/-- The conversion `String(v)`. It is exact on strings, `undefined`, `null`,
booleans, `NaN`, the infinities and integers of fewer than 22 digits. The
text of a fractional number, of a function and of a referenced object depends on
number formatting and on the value's own `toString`, which are not
represented: those cases yield the text of a plain object. `validatePagesV1`
applies `String` only after it has asserted that the value is a string. -/
def jsString : JsVal → String
  | .str s => s
  | .undefined => "undefined"
  | .null => "null"
  | .bool true => "true"
  | .bool false => "false"
  | .num .nan => "NaN"
  | .num .posInf => "Infinity"
  | .num .negInf => "-Infinity"
  | .num (.fin q) => if q.den = 1 then toString q.num else "[object Object]"
  | .func _ => "[object Object]"
  | .object _ => "[object Object]"

/-! ## Page descriptors -/

/-- The own properties of a page descriptor, in insertion order. -/
abbrev Props := List (String × JsVal)

/-- Reading a property: `undefined` when the object has no such property. -/
def getProp : Props → String → JsVal
  | [], _ => .undefined
  | (k, v) :: rest, name => if k = name then v else getProp rest name

/-- Defining a property in an object literal after a spread: an existing
property keeps its position and takes the new value, a new one is appended. -/
def setProp : Props → String → JsVal → Props
  | [], name, v => [(name, v)]
  | (k, w) :: rest, name, v =>
    if k = name then (name, v) :: rest else (k, w) :: setProp rest name v

/-- An element of the `pages` array: a descriptor object with its properties,
or any other value (a primitive, a function, or an object without own
properties). -/
inductive PageEntry where
  | record (props : Props)
  | other (v : JsVal)
  deriving DecidableEq

namespace PageEntry

/-- The own properties that a spread `{...p}` copies. -/
def props : PageEntry → Props
  | .record ps => ps
  | .other _ => []

/-- The property access `p.name`. -/
def get (p : PageEntry) (name : String) : JsVal := getProp p.props name

/-- The test `p && typeof p === 'object'`. -/
def isObject : PageEntry → Bool
  | .record _ => true
  | .other v => v.truthy && decide (v.typeOf = .object)

end PageEntry

/-- The `pages` argument: an array of entries, or a value that is not an array. -/
inductive PagesArg where
  | array (items : List PageEntry)
  | notArray (v : JsVal)
  deriving DecidableEq

/-! ## validatePagesV1 -/

/-- The failures of `validatePagesV1`, one per `assert` of the source; the
payload is what the message interpolates. -/
inductive ConfigError where
  | atLeastOnePage
  | atMostPages (limit : ℚ)
  | mustBeObject (idx : Nat)
  | keyRequired (idx : Nat)
  | titleRequired (idx : Nat)
  | componentRequired (idx : Nat)
  | iconInvalid (idx : Nat)
  | duplicateKey (k : String)
  deriving DecidableEq

deriving instance DecidableEq for Except

/-- The function `assert(condition, message)`. -/
def assert (condition : Bool) (message : ConfigError) : Except ConfigError Unit :=
  if condition then .ok () else .error message

/-- The function `normalizePages`. -/
def normalizePages : PagesArg → List PageEntry
  | .array items => items
  | .notArray _ => []

/-- The `limit` of `validatePagesV1`:
`typeof maxPages === 'number' && Number.isFinite(maxPages) ? maxPages : 5`. -/
def pageLimit : JsVal → ℚ
  | .num (.fin q) => q
  | _ => 5

/-- The test `typeof v === 'string' && v.trim()`. -/
def isNonBlankString : JsVal → Bool
  | .str s => decide (jsTrim s ≠ "")
  | _ => false

/-- The `iconOk` expression. -/
def iconOk (icon : JsVal) : Bool :=
  decide (icon.typeOf = .string) || decide (icon.typeOf = .number)
    || (icon.truthy && decide (icon.typeOf = .object))

/-- The `k` of the `forEach` callback, `p.key.trim()`; it is evaluated after
the assert that `p.key` is a string, where `String(p.key)` is `p.key`. -/
def PageEntry.trimmedKey (p : PageEntry) : String := jsTrim (jsString (p.get "key"))

/-- The body of the `forEach` callback: the asserts on entry `p` at position
`idx`, with `keys` the set of trimmed keys seen so far; returns the set with
the key of `p` added. -/
def checkPage (keys : List String) (idx : Nat) (p : PageEntry) :
    Except ConfigError (List String) := do
  assert p.isObject (.mustBeObject idx)
  assert (isNonBlankString (p.get "key")) (.keyRequired idx)
  assert (isNonBlankString (p.get "title")) (.titleRequired idx)
  assert (decide ((p.get "Component").typeOf = .function)) (.componentRequired idx)
  assert (iconOk (p.get "icon")) (.iconInvalid idx)
  let k := p.trimmedKey
  assert (!(keys.contains k)) (.duplicateKey k)
  pure (k :: keys)

/-- The `forEach` loop from position `idx` on. -/
def checkPages : List String → Nat → List PageEntry → Except ConfigError (List String)
  | keys, _, [] => .ok keys
  | keys, idx, p :: rest =>
    match checkPage keys idx p with
    | .ok keys' => checkPages keys' (idx + 1) rest
    | .error e => .error e

/-- The per-entry asserts of the `forEach` callback that do not depend on the
other entries, as one test. -/
def pageChecks (p : PageEntry) : Bool :=
  p.isObject && isNonBlankString (p.get "key") && isNonBlankString (p.get "title")
    && decide ((p.get "Component").typeOf = .function) && iconOk (p.get "icon")

/-- The callback of the final `map`:
`{ ...p, key: String(p.key).trim(), title: String(p.title).trim() }`. -/
def trimPage (p : PageEntry) : Props :=
  setProp (setProp p.props "key" (.str (jsTrim (jsString (p.get "key")))))
    "title" (.str (jsTrim (jsString (p.get "title"))))

/-- The function `validatePagesV1({ pages, maxPages })`. -/
def validatePagesV1 (pages : PagesArg) (maxPages : JsVal) : Except ConfigError (List Props) := do
  let safePages := normalizePages pages
  let limit := pageLimit maxPages
  assert (decide (safePages.length ≥ 1)) .atLeastOnePage
  assert (decide ((safePages.length : ℚ) ≤ limit)) (.atMostPages limit)
  let _ ← checkPages [] 0 safePages
  pure (safePages.map trimPage)

/-! ## useCoreLayoutLogic -/

/-- The method `Array.prototype.findIndex`, with `none` for the result `-1`. -/
def findIndex (pred : Props → Bool) : List Props → Option Nat
  | [] => none
  | p :: rest => if pred p then some 0 else (findIndex pred rest).map (· + 1)

/-- The function `resolveInitialIndex({ pages, initialPageKey })`. -/
def resolveInitialIndex (pages : List Props) (initialPageKey : JsVal) : Nat :=
  if isNonBlankString initialPageKey then
    match findIndex
      (fun p => decide (getProp p "key" = .str (jsTrim (jsString initialPageKey)))) pages with
    | some idx => idx
    | none => 0
  else 0

/-- The state of the hook: the `activeIndex` cell, and the arguments with
which `onPageChange` has been invoked so far, oldest first. -/
structure NavState where
  activeIndex : JsNum
  changes : List JsVal
  deriving DecidableEq

/-- How a call of a handler ends: normally, or with the `TypeError` of reading
a property of `undefined`. -/
inductive Completion where
  | normal
  | typeError
  deriving DecidableEq

/-- The element access `validatedPages[idx]`: an element for an integer index
within the array, `undefined` (here `none`) for every other number. -/
def elementAt (validatedPages : List Props) : JsNum → Option Props
  | .fin q => if q.den = 1 ∧ 0 ≤ q.num then validatedPages[q.num.toNat]? else none
  | _ => none

/-- The callback `setActiveByIndex(nextIndex)`. A state update made before a
`TypeError` stays queued, so the state is returned in both completions. -/
def setActiveByIndex (validatedPages : List Props) (onPageChange : JsVal) (s : NavState)
    (nextIndex : JsVal) : NavState × Completion :=
  let idx : JsNum := match nextIndex with
    | .num n => n
    | _ => .fin 0
  if idx.lt (.fin 0) || idx.ge (.ofNat validatedPages.length) then (s, .normal)
  else
    let s1 : NavState := { s with activeIndex := idx }
    if onPageChange.typeOf = .function then
      match elementAt validatedPages idx with
      | some page => ({ s1 with changes := s1.changes ++ [getProp page "key"] }, .normal)
      | none => (s1, .typeError)
    else (s1, .normal)

/-- The effect "keep state safe if config changes":
`if (activeIndex < validatedPages.length) return; setActiveIndex(0);`. -/
def keepStateSafe (validatedPages : List Props) (s : NavState) : NavState :=
  if s.activeIndex.lt (.ofNat validatedPages.length) then s else { s with activeIndex := .fin 0 }

/-- The first render of `useCoreLayoutLogic`: the validated pages and
`useState(initialIndex)`. -/
def mountLayout (pages : PagesArg) (initialPageKey maxPages : JsVal) :
    Except ConfigError (List Props × NavState) :=
  match validatePagesV1 pages maxPages with
  | .ok validatedPages =>
    .ok (validatedPages,
      { activeIndex := .ofNat (resolveInitialIndex validatedPages initialPageKey), changes := [] })
  | .error e => .error e

/-- The states of the hook that valid selections and revalidations reach:
after the first render, after `setActiveByIndex` with an integer index inside
the validated pages, and after a render with new `pages` or `maxPages` once
the effect `keepStateSafe` has run. -/
inductive Settled : List Props → NavState → Prop where
  | mount {pages : PagesArg} {initialPageKey maxPages : JsVal} {vp : List Props} {s : NavState} :
      mountLayout pages initialPageKey maxPages = .ok (vp, s) → Settled vp s
  | select {vp : List Props} {s : NavState} (onPageChange : JsVal) (idx : Nat) :
      Settled vp s → idx < vp.length →
      Settled vp (setActiveByIndex vp onPageChange s (.num (.ofNat idx))).1
  | revalidate {vp vp' : List Props} {s : NavState} (pages : PagesArg) (maxPages : JsVal) :
      Settled vp s → validatePagesV1 pages maxPages = .ok vp' →
      Settled vp' (keepStateSafe vp' s)

end CoreLayout

namespace CoreLayoutGate

open CoreLayout

/-! ## useCoreLayoutGateLogic -/

/-- The entry modes, the values of `CORE_ENTRY`. -/
inductive CoreEntry where
  | onboarding
  | home
  | auth
  deriving DecidableEq

/-- The string of each member of `CORE_ENTRY`. -/
def CoreEntry.value : CoreEntry → String
  | .onboarding => "onboarding"
  | .home => "home"
  | .auth => "auth"

/-- The function `normalizeEntry(value)`. -/
def normalizeEntry (value : JsVal) : CoreEntry :=
  if value = .str CoreEntry.onboarding.value then .onboarding
  else if value = .str CoreEntry.auth.value then .auth
  else .home

/-- The `status` cell: `'loading' | 'ready' | 'error'`. -/
inductive Status where
  | loading
  | ready
  | error
  deriving DecidableEq

/-- An `Error` object, by its `name` and `message`. -/
structure JsError where
  name : String
  message : String
  deriving DecidableEq

/-- The object `new Error(message)`. -/
def JsError.create (message : String) : JsError := { name := "Error", message := message }

/-- A value caught by the `catch` of `run`, by what the handler observes of
it: an instance of `Error`, `undefined`, `null`, or another value given by
the text that `String` returns for it. -/
inductive Thrown where
  | error (e : JsError)
  | undefined
  | null
  | value (text : String)
  deriving DecidableEq

/-- The conversion `String(e)` of a thrown value (`Error.prototype.toString`
for an error). -/
def Thrown.text : Thrown → String
  | .error e =>
    if e.name = "" then e.message
    else if e.message = "" then e.name
    else e.name ++ ": " ++ e.message
  | .undefined => "undefined"
  | .null => "null"
  | .value text => text

/-- The expression `e instanceof Error ? e : new Error(String(e ?? 'Unknown error'))`. -/
def caughtError : Thrown → JsError
  | .error e => e
  | .undefined => JsError.create "Unknown error"
  | .null => JsError.create "Unknown error"
  | .value text => JsError.create text

/-- What `resolveEntry`, or a call of it, evaluates to: a value without a
`then` method, or a thenable that `run` awaits. -/
inductive Raw where
  | value (v : JsVal)
  | thenable
  deriving DecidableEq

/-- The `resolveEntry` argument: a constant, a function that returns, or a
function that throws when called. -/
inductive Resolver where
  | constant (raw : Raw)
  | returns (raw : Raw)
  | throws (e : Thrown)
  deriving DecidableEq

/-- How an awaited thenable settles. -/
inductive Settlement where
  | fulfilled (v : JsVal)
  | rejected (e : Thrown)
  deriving DecidableEq

/-- The three state cells that the hook returns. -/
structure GateState where
  status : Status
  entry : CoreEntry
  error : Option JsError
  deriving DecidableEq

/-- The hook instance: its state cells, `mountedRef.current`, and the
`cancelled` variable of every run of the resolution effect, in the order in
which the runs were issued (the position of a run is its token). -/
structure Gate where
  state : GateState
  mounted : Bool
  cancelled : List Bool
  deriving DecidableEq

/-- The values of `useState` at construction, before any effect has run. -/
def Gate.initial : Gate :=
  { state := { status := .loading, entry := .home, error := none },
    mounted := true, cancelled := [] }

/-- The cleanup of the resolution effect, `cancelled = true`, for the run
issued last. -/
def cleanup (g : Gate) : Gate :=
  { g with cancelled := g.cancelled.set (g.cancelled.length - 1) true }

/-- The guard `cancelled || !mountedRef.current` of the run with the given token. -/
def discarded (g : Gate) (token : Nat) : Bool :=
  g.cancelled.getD token true || !g.mounted

/-- The tail of the `try` block of `run`, from `normalizeEntry(resolved)` on. -/
def applyResolved (g : Gate) (token : Nat) (resolved : JsVal) : Gate :=
  let nextEntry := normalizeEntry resolved
  if discarded g token then g
  else { g with state := { g.state with entry := nextEntry, status := .ready } }

/-- The `catch` block of `run`. -/
def applyThrown (g : Gate) (token : Nat) (e : Thrown) : Gate :=
  if discarded g token then g
  else { g with state := { g.state with error := some (caughtError e), status := .error } }

/-- The resolution effect for a new `resolveEntry`: the cleanup of the
previous run, a fresh `cancelled = false`, and `run()` up to its first
`await` (to its end when nothing is awaited). -/
def issue (g : Gate) (resolveEntry : Resolver) : Gate :=
  let g0 := cleanup g
  let token := g0.cancelled.length
  let g1 : Gate :=
    { g0 with
      cancelled := g0.cancelled ++ [false],
      state := { g0.state with status := .loading, error := none } }
  match resolveEntry with
  | .constant (.value v) => applyResolved g1 token v
  | .returns (.value v) => applyResolved g1 token v
  | .constant .thenable => g1
  | .returns .thenable => g1
  | .throws e => applyThrown g1 token e

/-- The token of the run that `issue g` starts. -/
def nextToken (g : Gate) : Nat := g.cancelled.length

/-- The continuation of `run` after `await raw`, for the run with the given token. -/
def settle (g : Gate) (token : Nat) : Settlement → Gate
  | .fulfilled v => applyResolved g token v
  | .rejected e => applyThrown g token e

/-- The unmount of the component: both effect cleanups. -/
def unmount (g : Gate) : Gate := { cleanup g with mounted := false }

/-- The failure of `validateEntryRequirements`: the renderer that is missing. -/
inductive CapabilityError where
  | onboardingNotProvided
  | authNotProvided
  deriving DecidableEq

/-- The callback `validateEntryRequirements(currentEntry)`. -/
def validateEntryRequirements (renderOnboarding renderAuth : JsVal) (currentEntry : CoreEntry) :
    Except CapabilityError Unit := do
  if currentEntry = .onboarding then
    if renderOnboarding.typeOf = .function then pure () else throw .onboardingNotProvided
  if currentEntry = .auth then
    if renderAuth.typeOf = .function then pure () else throw .authNotProvided

/-- The effect on `[entry, status]`:
`if (status !== 'ready') return; validateEntryRequirements(entry);`. -/
def requirementsEffect (renderOnboarding renderAuth : JsVal) (s : GateState) :
    Except CapabilityError Unit :=
  if s.status ≠ .ready then .ok ()
  else validateEntryRequirements renderOnboarding renderAuth s.entry

end CoreLayoutGate

namespace CoreLayout

/-! ## Sample inputs -/

/-- A page descriptor with the given key and title, a glyph icon, a component
and initial props. -/
def samplePage (key title : String) : PageEntry :=
  .record [("key", .str key), ("title", .str title), ("icon", .str "*"),
    ("Component", .func 0), ("initialProps", .object 1)]

/-- Two descriptors whose keys differ only by a leading space. -/
def pagesEqualAfterTrim : List PageEntry := [samplePage "a" "First", samplePage " a" "Second"]

/-- Two descriptors with surrounding blanks in key and title. -/
def pagesPadded : List PageEntry := [samplePage " a " "First ", samplePage "b" " Second"]

/-- The validated form of `pagesPadded`. -/
def pagesPaddedValidated : List Props :=
  [[("key", .str "a"), ("title", .str "First"), ("icon", .str "*"),
      ("Component", .func 0), ("initialProps", .object 1)],
   [("key", .str "b"), ("title", .str "Second"), ("icon", .str "*"),
      ("Component", .func 0), ("initialProps", .object 1)]]

/-- One descriptor: the page list `pagesPadded` after its second page is removed. -/
def pagesShrunk : List PageEntry := [samplePage " a " "First "]

/-- The validated form of `pagesShrunk`. -/
def pagesShrunkValidated : List Props :=
  [[("key", .str "a"), ("title", .str "First"), ("icon", .str "*"),
      ("Component", .func 0), ("initialProps", .object 1)]]

/-- The state with the second page active and no call of `onPageChange` yet. -/
def secondPageActive : NavState := { activeIndex := .ofNat 1, changes := [] }

/-- The number 1/2, as a reduced fraction. -/
def oneHalf : ℚ := { num := 1, den := 2, den_nz := by decide, reduced := by decide }

end CoreLayout

namespace CoreLayoutGate

open CoreLayout

/-- What can happen to a mounted gate: the host passes a new `resolveEntry`,
an awaited thenable settles, or the component is unmounted. -/
inductive GateEvent where
  | issue (resolveEntry : Resolver)
  | settle (token : Nat) (outcome : Settlement)
  | unmount
  deriving DecidableEq

/-- The gate after one event. -/
def step (g : Gate) : GateEvent → Gate
  | .issue resolveEntry => issue g resolveEntry
  | .settle token outcome => settle g token outcome
  | .unmount => unmount g

/-- The gate after a sequence of events, oldest first. -/
def run (g : Gate) (events : List GateEvent) : Gate := events.foldl step g

/-- A resolver function that returns a promise, such as `() => fetchEntry()`. -/
def asyncResolver : Resolver := .returns .thenable

/-- The gate after its first resolution has completed with "onboarding". -/
def gateAtOnboarding : Gate := issue Gate.initial (.constant (.value (.str "onboarding")))

/-- The error `new Error("boom")`. -/
def boom : JsError := JsError.create "boom"

end CoreLayoutGate

/-! # Theorems -/

namespace CoreLayout

/-! ## Properties of the page-set validator -/

theorem getProp_setProp_same (ps : Props) (name : String) (v : JsVal) :
    getProp (setProp ps name v) name = v := by
  induction ps with
  | nil => simp [setProp, getProp]
  | cons kv rest ih =>
    obtain ⟨k, w⟩ := kv
    by_cases h : k = name
    · simp [setProp, getProp, h]
    · simp [setProp, getProp, h, ih]

theorem getProp_setProp_ne (ps : Props) (name other : String) (v : JsVal) (h : other ≠ name) :
    getProp (setProp ps name v) other = getProp ps other := by
  induction ps with
  | nil => simp [setProp, getProp, Ne.symm h]
  | cons kv rest ih =>
    obtain ⟨k, w⟩ := kv
    by_cases hk : k = name
    · subst hk
      simp [setProp, getProp, Ne.symm h]
    · by_cases ho : k = other
      · subst ho
        simp [setProp, getProp, hk]
      · simp [setProp, getProp, hk, ho, ih]

theorem checkPage_ok_iff (keys ks : List String) (idx : Nat) (p : PageEntry) :
    checkPage keys idx p = .ok ks ↔
      pageChecks p = true ∧ p.trimmedKey ∉ keys ∧ ks = p.trimmedKey :: keys := by
  unfold checkPage pageChecks assert
  simp only [bind, Except.bind, pure, Except.pure]
  constructor
  · intro h
    split_ifs at h
    all_goals simp_all
  · rintro ⟨h1, h2, h3⟩
    simp_all

theorem checkPages_ok_iff (ps : List PageEntry) (keys ks : List String) (idx : Nat) :
    checkPages keys idx ps = .ok ks ↔
      (∀ p ∈ ps, pageChecks p = true) ∧ (∀ p ∈ ps, p.trimmedKey ∉ keys)
        ∧ (ps.map PageEntry.trimmedKey).Nodup
        ∧ ks = (ps.map PageEntry.trimmedKey).reverse ++ keys := by
  induction ps generalizing keys idx with
  | nil =>
    simp only [checkPages, Except.ok.injEq, List.not_mem_nil, false_implies, implies_true,
      List.map_nil, List.nodup_nil, List.reverse_nil, List.nil_append, true_and]
    exact eq_comm
  | cons p rest ih =>
    unfold checkPages
    cases hp : checkPage keys idx p with
    | error e =>
      have hne : ¬ (pageChecks p = true ∧ p.trimmedKey ∉ keys) := by
        intro h
        have := (checkPage_ok_iff keys (p.trimmedKey :: keys) idx p).2 ⟨h.1, h.2, rfl⟩
        rw [hp] at this
        cases this
      simp only [List.mem_cons, forall_eq_or_imp, false_iff, reduceCtorEq]
      rintro ⟨⟨h1, -⟩, ⟨h2, -⟩, -, -⟩
      exact hne ⟨h1, h2⟩
    | ok keys' =>
      obtain ⟨h1, h2, h3⟩ := (checkPage_ok_iff keys keys' idx p).1 hp
      subst h3
      simp only [ih, List.mem_cons, forall_eq_or_imp, List.map_cons, List.nodup_cons,
        List.reverse_cons, List.append_assoc, List.singleton_append, List.mem_map, not_or]
      constructor
      · rintro ⟨a, b, c, d⟩
        refine ⟨⟨h1, a⟩, ⟨h2, fun q hq => (b q hq).2⟩, ⟨?_, c⟩, d⟩
        rintro ⟨q, hq, hqk⟩
        exact (b q hq).1 hqk
      · rintro ⟨⟨-, a⟩, ⟨-, b⟩, ⟨c, d⟩, e⟩
        refine ⟨a, fun q hq => ⟨fun hqk => c ⟨q, hq, hqk⟩, b q hq⟩, d, e⟩

theorem validatePagesV1_ok_iff (pages : PagesArg) (maxPages : JsVal) (out : List Props) :
    validatePagesV1 pages maxPages = .ok out ↔
      1 ≤ (normalizePages pages).length
        ∧ ((normalizePages pages).length : ℚ) ≤ pageLimit maxPages
        ∧ (∀ p ∈ normalizePages pages, pageChecks p = true)
        ∧ ((normalizePages pages).map PageEntry.trimmedKey).Nodup
        ∧ out = (normalizePages pages).map trimPage := by
  unfold validatePagesV1 assert
  simp only [bind, Except.bind, pure, Except.pure]
  by_cases h1 : (normalizePages pages).length ≥ 1
  · by_cases h2 : ((normalizePages pages).length : ℚ) ≤ pageLimit maxPages
    · have e1 : decide ((normalizePages pages).length ≥ 1) = true := decide_eq_true h1
      have e2 : decide (((normalizePages pages).length : ℚ) ≤ pageLimit maxPages) = true :=
        decide_eq_true h2
      cases hc : checkPages [] 0 (normalizePages pages) with
      | error e =>
        have hne := fun ks => mt (checkPages_ok_iff (normalizePages pages) [] ks 0).2
          (by rw [hc]; simp)
        simp only [e1, e2, if_true, reduceCtorEq, false_iff]
        rintro ⟨-, -, a, b, -⟩
        exact hne _ ⟨a, by simp, b, rfl⟩
      | ok ks =>
        obtain ⟨a, -, b, -⟩ := (checkPages_ok_iff (normalizePages pages) [] ks 0).1 hc
        simp only [e1, e2, if_true, Except.ok.injEq]
        constructor
        · intro h
          exact ⟨h1, h2, a, b, h.symm⟩
        · rintro ⟨-, -, -, -, h⟩
          exact h.symm
    · simp [h1, h2]
  · simp [h1]

theorem pageChecks_strings (p : PageEntry) (h : pageChecks p = true) :
    ∃ k t : String, p.get "key" = .str k ∧ p.get "title" = .str t := by
  unfold pageChecks at h
  simp only [Bool.and_eq_true] at h
  obtain ⟨⟨⟨⟨-, hk⟩, ht⟩, -⟩, -⟩ := h
  cases hkey : p.get "key" <;> rw [hkey] at hk <;> simp [isNonBlankString] at hk
  cases htitle : p.get "title" <;> rw [htitle] at ht <;> simp [isNonBlankString] at ht
  exact ⟨_, _, rfl, rfl⟩

theorem validatePagesV1_total (pages : PagesArg) (maxPages : JsVal) :
    (∃ out, validatePagesV1 pages maxPages = .ok out)
      ∨ ∃ e, validatePagesV1 pages maxPages = .error e := by
  cases h : validatePagesV1 pages maxPages with
  | ok out => exact Or.inl ⟨out, rfl⟩
  | error e => exact Or.inr ⟨e, rfl⟩

theorem getProp_trimPage_key (p : PageEntry) :
    getProp (trimPage p) "key" = .str p.trimmedKey := by
  unfold trimPage PageEntry.trimmedKey
  rw [getProp_setProp_ne _ _ _ _ (by decide), getProp_setProp_same]

theorem getProp_trimPage_title (p : PageEntry) :
    getProp (trimPage p) "title" = .str (jsTrim (jsString (p.get "title"))) := by
  unfold trimPage
  rw [getProp_setProp_same]

theorem getProp_trimPage_other (p : PageEntry) (name : String) (hk : name ≠ "key")
    (ht : name ≠ "title") : getProp (trimPage p) name = p.get name := by
  unfold trimPage PageEntry.get
  rw [getProp_setProp_ne _ _ _ _ ht, getProp_setProp_ne _ _ _ _ hk]

/-- C7: `validatePagesV1` fails on a page list of length 0 (a non-list argument
counts as the empty list) and on a list with more entries than the limit,
which is `maxPages` when that is a finite number and 5 otherwise; every list
it returns has the length of its input, at least 1 and at most the limit. -/
theorem validatePagesV1_length_bounds (pages : PagesArg) (maxPages : JsVal) :
    ((normalizePages pages).length = 0 →
        validatePagesV1 pages maxPages = .error .atLeastOnePage)
      ∧ (pageLimit maxPages < ((normalizePages pages).length : ℚ) →
        validatePagesV1 pages maxPages
          = .error (if (normalizePages pages).length = 0 then .atLeastOnePage
              else .atMostPages (pageLimit maxPages)))
      ∧ (∀ v, validatePagesV1 (.notArray v) maxPages = .error .atLeastOnePage)
      ∧ ((∀ q, maxPages ≠ .num (.fin q)) → pageLimit maxPages = 5)
      ∧ (∀ q, pageLimit (.num (.fin q)) = q)
      ∧ (∀ out, validatePagesV1 pages maxPages = .ok out →
          out.length = (normalizePages pages).length ∧ 1 ≤ out.length
            ∧ (out.length : ℚ) ≤ pageLimit maxPages) := by
  refine ⟨?_, ?_, ?_, ?_, ?_, ?_⟩
  · intro h0
    simp [validatePagesV1, assert, h0, bind, Except.bind]
  · intro hlt
    by_cases h0 : (normalizePages pages).length = 0
    · simp [validatePagesV1, assert, h0, bind, Except.bind]
    · have h1 : (normalizePages pages).length ≥ 1 := Nat.one_le_iff_ne_zero.2 h0
      have h2 : ¬ ((normalizePages pages).length : ℚ) ≤ pageLimit maxPages := not_le.2 hlt
      simp [validatePagesV1, assert, h0, h1, h2, bind, Except.bind]
  · intro v
    simp [validatePagesV1, assert, normalizePages, bind, Except.bind]
  · intro h
    unfold pageLimit
    split
    · rename_i q
      exact absurd rfl (h q)
    · rfl
  · intro q
    rfl
  · intro out hok
    obtain ⟨h1, h2, -, -, h5⟩ := (validatePagesV1_ok_iff pages maxPages out).1 hok
    subst h5
    rw [List.length_map]
    exact ⟨rfl, h1, h2⟩

/-- C8: a page list in which two descriptors have the same key after trimming
is rejected by `validatePagesV1`, whatever the other fields and `maxPages`
are; the keys of every list it returns are pairwise distinct. -/
theorem validatePagesV1_keys_distinct (pages : PagesArg) (maxPages : JsVal) :
    (∀ (i j : Nat) (ki kj : String), i < j →
        ((normalizePages pages)[i]?).map (fun p => p.get "key") = some (.str ki) →
        ((normalizePages pages)[j]?).map (fun p => p.get "key") = some (.str kj) →
        jsTrim ki = jsTrim kj →
        ∃ e, validatePagesV1 pages maxPages = .error e)
      ∧ (∀ out, validatePagesV1 pages maxPages = .ok out →
          (out.map (fun p => getProp p "key")).Nodup) := by
  constructor
  · intro i j ki kj hij hi hj heq
    rcases validatePagesV1_total pages maxPages with ⟨out, hok⟩ | herr
    · exfalso
      obtain ⟨-, -, -, hnd, -⟩ := (validatePagesV1_ok_iff pages maxPages out).1 hok
      cases hpi : (normalizePages pages)[i]? with
      | none => simp [hpi] at hi
      | some pi =>
        cases hpj : (normalizePages pages)[j]? with
        | none => simp [hpj] at hj
        | some pj =>
          simp only [hpi, hpj, Option.map_some', Option.some.injEq] at hi hj
          have hjlt : j < ((normalizePages pages).map PageEntry.trimmedKey).length := by
            rw [List.length_map]
            exact (List.getElem?_eq_some_iff.1 hpj).1
          refine List.nodup_iff_getElem?_ne_getElem?.1 hnd i j hij hjlt ?_
          simp only [List.getElem?_map, hpi, hpj, Option.map_some', PageEntry.trimmedKey, hi, hj,
            jsString, heq]
    · exact herr
  · intro out hok
    obtain ⟨-, -, -, hnd, hout⟩ := (validatePagesV1_ok_iff pages maxPages out).1 hok
    subst hout
    have hmap : ((normalizePages pages).map trimPage).map (fun p => getProp p "key")
        = ((normalizePages pages).map PageEntry.trimmedKey).map JsVal.str := by
      simp only [List.map_map]
      apply List.map_congr_left
      intro p _
      exact getProp_trimPage_key p
    rw [hmap]
    exact hnd.map (fun a b h => by injection h)

/-- C1, as amended: a page list of length 1..5 whose entries are descriptors
with string keys and titles that are non-empty after trimming, keys that are
pairwise distinct after trimming, an icon that is a string, a number or an
object, and a function as `Component`, is accepted by `validatePagesV1` with
the default `maxPages`; the result has the same length, and its i-th entry
reads the trimmed key and title of the i-th input entry and the input's own
value for every other property. -/
theorem validatePagesV1_trims_valid_pages (items : List PageEntry)
    (hlen : 1 ≤ items.length ∧ items.length ≤ 5)
    (hvalid : ∀ p ∈ items, ∃ props k t, p = .record props
      ∧ getProp props "key" = .str k ∧ jsTrim k ≠ ""
      ∧ getProp props "title" = .str t ∧ jsTrim t ≠ ""
      ∧ ((∃ s, getProp props "icon" = .str s) ∨ (∃ n, getProp props "icon" = .num n)
          ∨ (∃ r, getProp props "icon" = .object r))
      ∧ (∃ r, getProp props "Component" = .func r))
    (hdistinct : (items.map PageEntry.trimmedKey).Nodup) :
    ∃ out, validatePagesV1 (.array items) .undefined = .ok out
      ∧ out.length = items.length
      ∧ ∀ (i : Nat) (props : Props) (k t : String), items[i]? = some (.record props) →
          getProp props "key" = .str k → getProp props "title" = .str t →
          ∃ q, out[i]? = some q ∧ getProp q "key" = .str (jsTrim k)
            ∧ getProp q "title" = .str (jsTrim t)
            ∧ ∀ name, name ≠ "key" → name ≠ "title" →
                getProp q name = getProp props name := by
  have hchecks : ∀ p ∈ normalizePages (.array items), pageChecks p = true := by
    intro p hp
    obtain ⟨props, k, t, rfl, hk, hkne, ht, htne, hicon, ⟨r, hc⟩⟩ := hvalid p hp
    rcases hicon with ⟨s, hi⟩ | ⟨n, hi⟩ | ⟨r', hi⟩ <;>
      simp [pageChecks, PageEntry.isObject, PageEntry.get, PageEntry.props, isNonBlankString,
        iconOk, JsVal.typeOf, JsVal.truthy, hk, ht, hc, hi, hkne, htne]
  have hlimit : ((normalizePages (.array items)).length : ℚ) ≤ pageLimit .undefined := by
    have : items.length ≤ 5 := hlen.2
    simp only [normalizePages, pageLimit]
    exact_mod_cast this
  refine ⟨items.map trimPage, ?_, List.length_map _ _, ?_⟩
  · exact (validatePagesV1_ok_iff _ _ _).2 ⟨hlen.1, hlimit, hchecks, hdistinct, rfl⟩
  · intro i props k t hi hk ht
    refine ⟨trimPage (.record props), by simp [hi], ?_, ?_, ?_⟩
    · rw [getProp_trimPage_key]
      simp [PageEntry.trimmedKey, PageEntry.get, PageEntry.props, hk, jsString]
    · rw [getProp_trimPage_title]
      simp [PageEntry.get, PageEntry.props, ht, jsString]
    · intro name h1 h2
      exact getProp_trimPage_other _ name h1 h2

theorem validatePagesV1_trims_valid_pages_witness :
    ∃ out, validatePagesV1 (.array pagesPadded) .undefined = .ok out
      ∧ out.length = pagesPadded.length
      ∧ ∀ (i : Nat) (props : Props) (k t : String), pagesPadded[i]? = some (.record props) →
          getProp props "key" = .str k → getProp props "title" = .str t →
          ∃ q, out[i]? = some q ∧ getProp q "key" = .str (jsTrim k)
            ∧ getProp q "title" = .str (jsTrim t)
            ∧ ∀ name, name ≠ "key" → name ≠ "title" →
                getProp q name = getProp props name :=
  validatePagesV1_trims_valid_pages pagesPadded (by decide)
    (by
      intro p hp
      simp only [pagesPadded, List.mem_cons, List.mem_singleton, List.not_mem_nil, or_false] at hp
      rcases hp with rfl | rfl
      · exact ⟨_, " a ", "First ", rfl, by decide, by decide, by decide, by decide,
          Or.inl ⟨"*", by decide⟩, ⟨0, by decide⟩⟩
      · exact ⟨_, "b", " Second", rfl, by decide, by decide, by decide, by decide,
          Or.inl ⟨"*", by decide⟩, ⟨0, by decide⟩⟩)
    (by decide)

/-- C1, as stated, fails: the keys "a" and " a" are distinct and non-empty,
the titles are non-empty, the icons and components are valid, and
`validatePagesV1` rejects the list because the keys are equal after trimming. -/
theorem validatePagesV1_rejects_keys_equal_after_trim :
    (1 ≤ pagesEqualAfterTrim.length ∧ pagesEqualAfterTrim.length ≤ 5)
      ∧ (∀ p ∈ pagesEqualAfterTrim, ∃ props k t, p = .record props
          ∧ getProp props "key" = .str k ∧ k ≠ ""
          ∧ getProp props "title" = .str t ∧ t ≠ ""
          ∧ ((∃ s, getProp props "icon" = .str s) ∨ (∃ n, getProp props "icon" = .num n)
              ∨ (∃ r, getProp props "icon" = .object r))
          ∧ (∃ r, getProp props "Component" = .func r))
      ∧ (pagesEqualAfterTrim.map (fun p => p.get "key")).Nodup
      ∧ validatePagesV1 (.array pagesEqualAfterTrim) .undefined = .error (.duplicateKey "a") := by
  refine ⟨by decide, ?_, by decide, by decide⟩
  intro p hp
  simp only [pagesEqualAfterTrim, List.mem_cons, List.mem_singleton, List.not_mem_nil,
    or_false] at hp
  rcases hp with rfl | rfl
  · exact ⟨_, "a", "First", rfl, by decide, by decide, by decide, by decide,
      Or.inl ⟨"*", by decide⟩, ⟨0, by decide⟩⟩
  · exact ⟨_, " a", "Second", rfl, by decide, by decide, by decide, by decide,
      Or.inl ⟨"*", by decide⟩, ⟨0, by decide⟩⟩

theorem validatePagesV1_length_bounds_witness :
    validatePagesV1 (.array []) (.num (.fin 3)) = .error .atLeastOnePage
      ∧ validatePagesV1 (.array pagesPadded) (.num (.fin 1)) = .error (.atMostPages 1)
      ∧ pageLimit (.str "3") = 5
      ∧ (pagesPaddedValidated.length = 2 ∧ 1 ≤ pagesPaddedValidated.length
          ∧ (pagesPaddedValidated.length : ℚ) ≤ 5) :=
  ⟨(validatePagesV1_length_bounds (.array []) (.num (.fin 3))).1 (by decide),
    (validatePagesV1_length_bounds (.array pagesPadded) (.num (.fin 1))).2.1 (by decide),
    (validatePagesV1_length_bounds (.array []) (.str "3")).2.2.2.1 (by intro q h; cases h),
    (validatePagesV1_length_bounds (.array pagesPadded) .undefined).2.2.2.2.2
      pagesPaddedValidated (by decide)⟩

theorem validatePagesV1_keys_distinct_witness :
    (∃ e, validatePagesV1 (.array pagesEqualAfterTrim) .undefined = .error e)
      ∧ (pagesPaddedValidated.map (fun p => getProp p "key")).Nodup :=
  ⟨(validatePagesV1_keys_distinct (.array pagesEqualAfterTrim) .undefined).1 0 1 "a" " a"
      (by decide) (by decide) (by decide) (by decide),
    (validatePagesV1_keys_distinct (.array pagesPadded) .undefined).2 pagesPaddedValidated
      (by decide)⟩

/-! ## Properties of the navigation state -/

theorem JsNum.lt_ofNat (a b : Nat) : JsNum.lt (.ofNat a) (.ofNat b) = decide (a < b) := by
  simp [JsNum.lt, JsNum.ofNat]

theorem JsNum.ge_ofNat (a b : Nat) : JsNum.ge (.ofNat a) (.ofNat b) = decide (b ≤ a) := by
  simp [JsNum.ge, JsNum.le, JsNum.ofNat]

theorem JsNum.ofNat_not_neg (a : Nat) : JsNum.lt (.ofNat a) (.fin 0) = false := by
  simp [JsNum.lt, JsNum.ofNat]

theorem elementAt_ofNat (vp : List Props) (idx : Nat) :
    elementAt vp (.ofNat idx) = vp[idx]? := by
  simp [elementAt, JsNum.ofNat]

theorem findIndex_lt (pred : Props → Bool) (ps : List Props) (i : Nat)
    (h : findIndex pred ps = some i) : i < ps.length := by
  induction ps generalizing i with
  | nil => simp [findIndex] at h
  | cons p rest ih =>
    unfold findIndex at h
    split_ifs at h
    · cases h
      simp
    · cases hr : findIndex pred rest with
      | none => simp [hr] at h
      | some j =>
        simp only [hr, Option.map_some', Option.some.injEq] at h
        subst h
        simpa using ih j hr

theorem resolveInitialIndex_lt (vp : List Props) (initialPageKey : JsVal) (h : 1 ≤ vp.length) :
    resolveInitialIndex vp initialPageKey < vp.length := by
  unfold resolveInitialIndex
  split_ifs
  · split
    · rename_i idx hidx
      exact findIndex_lt _ _ _ hidx
    · exact h
  · exact h

theorem validatePagesV1_ok_nonempty (pages : PagesArg) (maxPages : JsVal) (vp : List Props)
    (h : validatePagesV1 pages maxPages = .ok vp) : 1 ≤ vp.length := by
  obtain ⟨h1, -, -, -, h5⟩ := (validatePagesV1_ok_iff pages maxPages vp).1 h
  subst h5
  rw [List.length_map]
  exact h1

theorem setActiveByIndex_in_range (vp : List Props) (onPageChange : JsVal) (s : NavState)
    (idx : Nat) (h : idx < vp.length) :
    setActiveByIndex vp onPageChange s (.num (.ofNat idx))
      = ({ activeIndex := .ofNat idx,
           changes := if onPageChange.typeOf = .function
             then s.changes ++ [getProp (vp.get ⟨idx, h⟩) "key"]
             else s.changes }, .normal) := by
  have hge : JsNum.ge (.ofNat idx) (.ofNat vp.length) = false := by
    rw [JsNum.ge_ofNat]
    exact decide_eq_false (not_le.2 h)
  have hel : elementAt vp (.ofNat idx) = some (vp.get ⟨idx, h⟩) := by
    rw [elementAt_ofNat]
    exact List.getElem?_eq_getElem h
  unfold setActiveByIndex
  simp only [JsNum.ofNat_not_neg, hge, Bool.or_self, Bool.false_eq_true, if_false, hel]
  split_ifs <;> rfl

theorem settled_in_range (vp : List Props) (s : NavState) (h : Settled vp s) :
    ∃ i : Nat, s.activeIndex = .ofNat i ∧ i < vp.length := by
  induction h with
  | @mount pages initialPageKey maxPages vp s hm =>
    unfold mountLayout at hm
    cases hv : validatePagesV1 pages maxPages with
    | error e => simp [hv] at hm
    | ok vp0 =>
      simp only [hv, Except.ok.injEq, Prod.mk.injEq] at hm
      obtain ⟨rfl, rfl⟩ := hm
      exact ⟨_, rfl, resolveInitialIndex_lt _ _ (validatePagesV1_ok_nonempty _ _ _ hv)⟩
  | select onPageChange idx _ hidx _ =>
    rw [setActiveByIndex_in_range _ _ _ idx hidx]
    exact ⟨idx, rfl, hidx⟩
  | @revalidate vp vp' s pages maxPages _ hv ih =>
    obtain ⟨i, hi, -⟩ := ih
    have hne := validatePagesV1_ok_nonempty _ _ _ hv
    unfold keepStateSafe
    rw [hi, JsNum.lt_ofNat]
    by_cases hlt : i < vp'.length
    · simp only [hlt, decide_True, if_true]
      exact ⟨i, hi, hlt⟩
    · simp only [hlt, decide_False, Bool.false_eq_true, if_false]
      exact ⟨0, by simp [JsNum.ofNat], hne⟩

theorem JsNum.lt_false_of_ge (a b : JsNum) (h : a.ge b = true) : a.lt b = false := by
  cases a <;> cases b <;> simp_all [JsNum.ge, JsNum.le, JsNum.lt]

theorem validatePagesV1_ok_key_string (pages : PagesArg) (maxPages : JsVal) (vp : List Props)
    (h : validatePagesV1 pages maxPages = .ok vp) (p : Props) (hp : p ∈ vp) :
    ∃ key : String, getProp p "key" = .str key := by
  obtain ⟨-, -, -, -, hout⟩ := (validatePagesV1_ok_iff pages maxPages vp).1 h
  subst hout
  obtain ⟨q, -, rfl⟩ := List.mem_map.1 hp
  exact ⟨_, getProp_trimPage_key q⟩

/-- C2, as stated, fails: with two validated pages, the second one active and
an `onPageChange` registered, `setActiveByIndex` called with the string "1",
which is not a number, makes the first page active and invokes `onPageChange`
with its key. -/
theorem setActiveByIndex_non_number_selects_first :
    validatePagesV1 (.array pagesPadded) .undefined = .ok pagesPaddedValidated
      ∧ setActiveByIndex pagesPaddedValidated (.func 7) secondPageActive (.str "1")
          = ({ activeIndex := .fin 0, changes := [.str "a"] }, .normal)
      ∧ secondPageActive.activeIndex ≠ .fin 0 := by
  decide

/-- C2, as amended: for every validated page set, `setActiveByIndex` called
with a number `idx` such that `idx < 0` or `idx >= len` (the infinities
included) leaves `activeIndex` unchanged and does not invoke `onPageChange`;
called with a value that is not a number it behaves as for index 0: the first
page becomes active and a registered `onPageChange` is invoked with its key. -/
theorem setActiveByIndex_out_of_range_or_non_number (pages : PagesArg) (maxPages : JsVal)
    (vp : List Props) (hv : validatePagesV1 pages maxPages = .ok vp)
    (onPageChange : JsVal) (s : NavState) :
    (∀ n : JsNum, n.lt (.fin 0) = true ∨ n.ge (.ofNat vp.length) = true →
        setActiveByIndex vp onPageChange s (.num n) = (s, .normal))
      ∧ (∀ v : JsVal, v.typeOf ≠ .number →
          setActiveByIndex vp onPageChange s v
              = setActiveByIndex vp onPageChange s (.num (.fin 0))
            ∧ ∃ first rest, vp = first :: rest
              ∧ setActiveByIndex vp onPageChange s v
                = ({ activeIndex := .fin 0,
                     changes := if onPageChange.typeOf = .function
                       then s.changes ++ [getProp first "key"] else s.changes }, .normal)) := by
  constructor
  · intro n hn
    unfold setActiveByIndex
    rcases hn with h | h <;> simp [h]
  · intro v hv'
    have hsame : setActiveByIndex vp onPageChange s v
        = setActiveByIndex vp onPageChange s (.num (.fin 0)) := by
      cases v <;> first | rfl | exact absurd rfl hv'
    refine ⟨hsame, ?_⟩
    have hne := validatePagesV1_ok_nonempty _ _ _ hv
    cases vp with
    | nil => simp at hne
    | cons first rest =>
      refine ⟨first, rest, rfl, ?_⟩
      rw [hsame]
      have h0 := setActiveByIndex_in_range (first :: rest) onPageChange s 0 (by simp)
      simpa [JsNum.ofNat] using h0

theorem setActiveByIndex_out_of_range_or_non_number_witness :
    setActiveByIndex pagesPaddedValidated (.func 7) secondPageActive (.num (.fin (-1)))
        = (secondPageActive, .normal)
      ∧ setActiveByIndex pagesPaddedValidated (.func 7) secondPageActive (.num (.fin 2))
        = (secondPageActive, .normal)
      ∧ setActiveByIndex pagesPaddedValidated (.func 7) secondPageActive (.num .posInf)
        = (secondPageActive, .normal)
      ∧ setActiveByIndex pagesPaddedValidated (.func 7) secondPageActive .undefined
        = setActiveByIndex pagesPaddedValidated (.func 7) secondPageActive (.num (.fin 0)) :=
  have h := setActiveByIndex_out_of_range_or_non_number (.array pagesPadded) .undefined
    pagesPaddedValidated (by decide) (.func 7) secondPageActive
  ⟨h.1 (.fin (-1)) (Or.inl (by decide)), h.1 (.fin 2) (Or.inr (by decide)),
    h.1 .posInf (Or.inr (by decide)), (h.2 .undefined (by decide)).1⟩

/-- An index that is a number inside the range but not an integer is not
filtered out: it is stored in `activeIndex`, and with an `onPageChange`
registered the read of `validatedPages[idx].key` ends in a `TypeError`. -/
theorem setActiveByIndex_fractional_index :
    setActiveByIndex pagesPaddedValidated (.func 7) secondPageActive (.num (.fin oneHalf))
        = ({ activeIndex := .fin oneHalf, changes := [] }, .typeError)
      ∧ setActiveByIndex pagesPaddedValidated (.func 7) secondPageActive (.num .nan)
        = ({ activeIndex := .nan, changes := [] }, .typeError)
      ∧ setActiveByIndex pagesPaddedValidated .undefined secondPageActive (.num (.fin oneHalf))
        = ({ activeIndex := .fin oneHalf, changes := [] }, .normal) := by
  decide

/-- C3: for every validated page set, every integer `idx` with
`0 <= idx < len` and a registered `onPageChange`, `setActiveByIndex(idx)` sets
`activeIndex` to `idx` and invokes `onPageChange` exactly once, with the key
of `pages[idx]` (a string); a second call with the same `idx` leaves
`activeIndex` as the first call left it and invokes `onPageChange` once
more, so twice in total. -/
theorem setActiveByIndex_selects_and_notifies (pages : PagesArg) (maxPages : JsVal)
    (vp : List Props) (hv : validatePagesV1 pages maxPages = .ok vp)
    (onPageChange : JsVal) (hcb : onPageChange.typeOf = .function)
    (s : NavState) (idx : Nat) (hidx : idx < vp.length) :
    ∃ key : String, getProp (vp.get ⟨idx, hidx⟩) "key" = .str key
      ∧ setActiveByIndex vp onPageChange s (.num (.ofNat idx))
          = ({ activeIndex := .ofNat idx, changes := s.changes ++ [.str key] }, .normal)
      ∧ setActiveByIndex vp onPageChange
            (setActiveByIndex vp onPageChange s (.num (.ofNat idx))).1 (.num (.ofNat idx))
          = ({ activeIndex := .ofNat idx, changes := s.changes ++ [.str key, .str key] },
              .normal) := by
  obtain ⟨key, hkey⟩ := validatePagesV1_ok_key_string pages maxPages vp hv _
    (List.get_mem vp idx hidx)
  refine ⟨key, hkey, ?_, ?_⟩
  · rw [setActiveByIndex_in_range vp onPageChange s idx hidx, hkey]
    simp [hcb]
  · rw [setActiveByIndex_in_range vp onPageChange s idx hidx,
      setActiveByIndex_in_range vp onPageChange _ idx hidx, hkey]
    simp [hcb]

theorem setActiveByIndex_selects_and_notifies_witness :
    ∃ key : String, getProp (pagesPaddedValidated.get ⟨0, by decide⟩) "key" = .str key
      ∧ setActiveByIndex pagesPaddedValidated (.func 7) secondPageActive (.num (.ofNat 0))
          = ({ activeIndex := .ofNat 0, changes := secondPageActive.changes ++ [.str key] },
              .normal)
      ∧ setActiveByIndex pagesPaddedValidated (.func 7)
            (setActiveByIndex pagesPaddedValidated (.func 7) secondPageActive
              (.num (.ofNat 0))).1 (.num (.ofNat 0))
          = ({ activeIndex := .ofNat 0,
               changes := secondPageActive.changes ++ [.str key, .str key] }, .normal) :=
  setActiveByIndex_selects_and_notifies (.array pagesPadded) .undefined pagesPaddedValidated
    (by decide) (.func 7) (by decide) secondPageActive 0 (by decide)

/-- C9: the self-correction effect resets `activeIndex` to 0 when
`activeIndex >= len` and leaves it unchanged when `activeIndex < len`, and in
neither case invokes `onPageChange`; in every state reached from the first
render by selections of a valid index and by revalidations followed by the
effect, `activeIndex` is an integer with `0 <= activeIndex < len`. -/
theorem keepStateSafe_restores_range :
    (∀ (vp : List Props) (s : NavState),
        (s.activeIndex.ge (.ofNat vp.length) = true →
          (keepStateSafe vp s).activeIndex = .fin 0)
        ∧ (s.activeIndex.lt (.ofNat vp.length) = true →
          (keepStateSafe vp s).activeIndex = s.activeIndex)
        ∧ (keepStateSafe vp s).changes = s.changes)
      ∧ (∀ (vp : List Props) (s : NavState), Settled vp s →
          ∃ i : Nat, s.activeIndex = .ofNat i ∧ i < vp.length) := by
  refine ⟨fun vp s => ⟨?_, ?_, ?_⟩, settled_in_range⟩
  · intro h
    simp [keepStateSafe, JsNum.lt_false_of_ge _ _ h]
  · intro h
    simp [keepStateSafe, h]
  · unfold keepStateSafe
    split_ifs <;> rfl

theorem keepStateSafe_restores_range_witness :
    (keepStateSafe pagesShrunkValidated secondPageActive).activeIndex = .fin 0
      ∧ (keepStateSafe pagesPaddedValidated secondPageActive).activeIndex
          = secondPageActive.activeIndex
      ∧ ∃ i : Nat, (keepStateSafe pagesShrunkValidated secondPageActive).activeIndex = .ofNat i
          ∧ i < pagesShrunkValidated.length :=
  ⟨(keepStateSafe_restores_range.1 pagesShrunkValidated secondPageActive).1 (by decide),
    (keepStateSafe_restores_range.1 pagesPaddedValidated secondPageActive).2.1 (by decide),
    keepStateSafe_restores_range.2 pagesShrunkValidated _
      (Settled.revalidate (.array pagesShrunk) .undefined
        (@Settled.mount (.array pagesPadded) (.str "b") .undefined pagesPaddedValidated
          secondPageActive (by decide))
        (by decide))⟩

end CoreLayout

namespace CoreLayoutGate

open CoreLayout

/-! ## Properties of the entry gate -/

theorem applyResolved_cancelled (g : Gate) (token : Nat) (v : JsVal) :
    (applyResolved g token v).cancelled = g.cancelled
      ∧ (applyResolved g token v).mounted = g.mounted := by
  unfold applyResolved
  split_ifs <;> exact ⟨rfl, rfl⟩

theorem applyThrown_cancelled (g : Gate) (token : Nat) (e : Thrown) :
    (applyThrown g token e).cancelled = g.cancelled
      ∧ (applyThrown g token e).mounted = g.mounted := by
  unfold applyThrown
  split_ifs <;> exact ⟨rfl, rfl⟩

theorem issue_cancelled (g : Gate) (r : Resolver) :
    (issue g r).cancelled = g.cancelled.set (g.cancelled.length - 1) true ++ [false]
      ∧ (issue g r).mounted = g.mounted := by
  unfold issue
  rcases r with (_ | _) | (_ | _) | _
  · exact applyResolved_cancelled _ _ _
  · exact ⟨rfl, rfl⟩
  · exact applyResolved_cancelled _ _ _
  · exact ⟨rfl, rfl⟩
  · exact applyThrown_cancelled _ _ _

theorem settle_cancelled (g : Gate) (token : Nat) (o : Settlement) :
    (settle g token o).cancelled = g.cancelled ∧ (settle g token o).mounted = g.mounted := by
  cases o
  · exact applyResolved_cancelled _ _ _
  · exact applyThrown_cancelled _ _ _

theorem settle_discarded (g : Gate) (token : Nat) (o : Settlement)
    (h : discarded g token = true) : settle g token o = g := by
  cases o <;> simp [settle, applyResolved, applyThrown, h]

theorem discarded_own (g : Gate) (r : Resolver) (hm : g.mounted = true) :
    discarded (issue g r) (nextToken g) = false := by
  unfold discarded nextToken
  rw [(issue_cancelled g r).1, (issue_cancelled g r).2, hm]
  simp [List.getD_eq_getElem?_getD, List.getElem?_append_right]

theorem superseded_flag (l : List Bool) :
    ((l ++ [false]).set ((l ++ [false]).length - 1) true ++ [false]).getD l.length true
      = true := by
  have hlen : (l ++ [false]).length - 1 = l.length := by simp
  rw [hlen]
  induction l with
  | nil => rfl
  | cons x rest ih => simpa using ih

theorem discarded_superseded (g : Gate) (a b : Resolver) :
    discarded (issue (issue g a) b) (nextToken g) = true := by
  unfold discarded nextToken
  rw [(issue_cancelled (issue g a) b).1, (issue_cancelled g a).1]
  have h := superseded_flag (g.cancelled.set (g.cancelled.length - 1) true)
  rw [List.length_set] at h
  rw [h]
  rfl

theorem fresh_flag (l : List Bool) : (l ++ [false]).getD l.length true = false := by
  simp

theorem issue_thenable_state (g : Gate) (r : Resolver)
    (hr : r = .constant .thenable ∨ r = .returns .thenable) :
    (issue g r).state = { status := .loading, entry := g.state.entry, error := none } := by
  rcases hr with rfl | rfl <;> rfl

theorem issue_value_state (g : Gate) (hm : g.mounted = true) (r : Resolver) (v : JsVal)
    (hr : r = .constant (.value v) ∨ r = .returns (.value v)) :
    (issue g r).state = { status := .ready, entry := normalizeEntry v, error := none } := by
  have hflag := fresh_flag (g.cancelled.set (g.cancelled.length - 1) true)
  rcases hr with rfl | rfl <;>
    simp [issue, applyResolved, discarded, cleanup, hm, hflag]

theorem issue_throws_state (g : Gate) (hm : g.mounted = true) (e : Thrown) :
    (issue g (.throws e)).state
      = { status := .error, entry := g.state.entry, error := some (caughtError e) } := by
  have hflag := fresh_flag (g.cancelled.set (g.cancelled.length - 1) true)
  simp [issue, applyThrown, discarded, cleanup, hm, hflag]

theorem settle_own_state (g : Gate) (hm : g.mounted = true) (r : Resolver)
    (hr : r = .constant .thenable ∨ r = .returns .thenable) (o : Settlement) :
    (settle (issue g r) (nextToken g) o).state
      = match o with
        | .fulfilled v => { status := .ready, entry := normalizeEntry v, error := none }
        | .rejected e =>
          { status := .error, entry := g.state.entry, error := some (caughtError e) } := by
  have hd := discarded_own g r hm
  have hs := issue_thenable_state g r hr
  cases o <;> simp [settle, applyResolved, applyThrown, hd, hs]

theorem normalizeEntry_cases (v : JsVal) :
    (normalizeEntry v = .onboarding ↔ v = .str "onboarding")
      ∧ (normalizeEntry v = .auth ↔ v = .str "auth")
      ∧ (normalizeEntry v = .home ↔ v ≠ .str "onboarding" ∧ v ≠ .str "auth") := by
  unfold normalizeEntry CoreEntry.value
  by_cases h1 : v = .str "onboarding"
  · subst h1
    simp
  · by_cases h2 : v = .str "auth"
    · subst h2
      simp
    · simp [h1, h2]

/-- C5: in a mounted gate, a resolver that is a constant `v`, a function
returning `v`, or a thenable that is fulfilled with `v` before a newer
resolution is issued, leaves the gate with status `ready`, `error = null` and
`entry = normalizeEntry(v)`; `normalizeEntry` maps exactly "onboarding" to
ONBOARDING, exactly "auth" to AUTH and every other value to HOME; in that
state the requirements effect succeeds when the renderer of the entry is a
function (HOME needs none) and raises a capability error, with the entry left
at ONBOARDING or AUTH, when it is not. -/
theorem gate_ready_with_normalized_entry (g : Gate) (hm : g.mounted = true) (v : JsVal)
    (renderOnboarding renderAuth : JsVal) :
    (issue g (.constant (.value v))).state
        = { status := .ready, entry := normalizeEntry v, error := none }
      ∧ (issue g (.returns (.value v))).state
        = { status := .ready, entry := normalizeEntry v, error := none }
      ∧ (settle (issue g (.returns .thenable)) (nextToken g) (.fulfilled v)).state
        = { status := .ready, entry := normalizeEntry v, error := none }
      ∧ (settle (issue g (.constant .thenable)) (nextToken g) (.fulfilled v)).state
        = { status := .ready, entry := normalizeEntry v, error := none }
      ∧ ((normalizeEntry v = .onboarding ↔ v = .str "onboarding")
        ∧ (normalizeEntry v = .auth ↔ v = .str "auth")
        ∧ (normalizeEntry v = .home ↔ v ≠ .str "onboarding" ∧ v ≠ .str "auth"))
      ∧ requirementsEffect renderOnboarding renderAuth
          { status := .ready, entry := normalizeEntry v, error := none }
        = (if normalizeEntry v = .onboarding ∧ renderOnboarding.typeOf ≠ .function
            then .error .onboardingNotProvided
          else if normalizeEntry v = .auth ∧ renderAuth.typeOf ≠ .function
            then .error .authNotProvided
          else .ok ()) := by
  refine ⟨issue_value_state g hm _ v (Or.inl rfl), issue_value_state g hm _ v (Or.inr rfl),
    settle_own_state g hm _ (Or.inr rfl) (.fulfilled v),
    settle_own_state g hm _ (Or.inl rfl) (.fulfilled v), normalizeEntry_cases v, ?_⟩
  unfold requirementsEffect validateEntryRequirements
  cases normalizeEntry v <;>
    by_cases h1 : renderOnboarding.typeOf = .function <;>
    by_cases h2 : renderAuth.typeOf = .function <;>
    simp [h1, h2, bind, Except.bind, pure, Except.pure, throw, throwThe, MonadExceptOf.throw]

theorem gate_ready_with_normalized_entry_witness :
    (settle (issue Gate.initial (.returns .thenable)) (nextToken Gate.initial)
        (.fulfilled (.str "onboarding"))).state
        = { status := .ready, entry := .onboarding, error := none }
      ∧ requirementsEffect (.func 1) .undefined
          { status := .ready, entry := .onboarding, error := none } = .ok ()
      ∧ requirementsEffect .undefined .undefined
          { status := .ready, entry := .onboarding, error := none }
        = .error .onboardingNotProvided :=
  ⟨(gate_ready_with_normalized_entry Gate.initial rfl (.str "onboarding")
      (.func 1) .undefined).2.2.1,
    (gate_ready_with_normalized_entry Gate.initial rfl (.str "onboarding")
      (.func 1) .undefined).2.2.2.2.2,
    (gate_ready_with_normalized_entry Gate.initial rfl (.str "onboarding")
      .undefined .undefined).2.2.2.2.2⟩

/-- C6, as stated, fails: a promise rejected with `undefined` leaves the gate
with an error whose message is "Unknown error", while the string form of
`undefined` is "undefined". -/
theorem gate_rejection_with_undefined_reads_unknown_error :
    (settle (issue Gate.initial asyncResolver) (nextToken Gate.initial)
        (.rejected .undefined)).state
        = { status := .error, entry := .home, error := some (JsError.create "Unknown error") }
      ∧ Thrown.text .undefined = "undefined"
      ∧ (JsError.create "Unknown error").message ≠ Thrown.text .undefined := by
  decide

/-- C6, as amended: in a mounted gate, a resolver that throws `r` when called,
or a thenable that is rejected with `r` before a newer resolution is issued,
leaves the gate with status `error`, `entry` at its value before the
resolution, and `error` set to `r` itself when `r` is an `Error`, to an error
whose message is "Unknown error" when `r` is `undefined` or `null`, and
otherwise to an error whose message is the string form of `r`; the result is
a gate state, nothing is thrown. A rejection with `Error("boom")` gives
status `error` and `error.message = "boom"`. -/
theorem gate_failed_with_caught_error (g : Gate) (hm : g.mounted = true) (r : Thrown) :
    (issue g (.throws r)).state
        = { status := .error, entry := g.state.entry, error := some (caughtError r) }
      ∧ (settle (issue g (.returns .thenable)) (nextToken g) (.rejected r)).state
        = { status := .error, entry := g.state.entry, error := some (caughtError r) }
      ∧ (settle (issue g (.constant .thenable)) (nextToken g) (.rejected r)).state
        = { status := .error, entry := g.state.entry, error := some (caughtError r) }
      ∧ (∀ e : JsError, r = .error e → caughtError r = e)
      ∧ (r = .undefined ∨ r = .null → caughtError r = JsError.create "Unknown error")
      ∧ (∀ text : String, r = .value text →
          caughtError r = JsError.create r.text ∧ (caughtError r).message = text)
      ∧ (caughtError (.error boom)).message = "boom" := by
  refine ⟨issue_throws_state g hm r, settle_own_state g hm _ (Or.inr rfl) (.rejected r),
    settle_own_state g hm _ (Or.inl rfl) (.rejected r), ?_, ?_, ?_, rfl⟩
  · rintro e rfl
    rfl
  · rintro (rfl | rfl) <;> rfl
  · rintro text rfl
    exact ⟨rfl, rfl⟩

theorem gate_failed_with_caught_error_witness :
    (settle (issue gateAtOnboarding asyncResolver) (nextToken gateAtOnboarding)
        (.rejected (.error boom))).state
        = { status := .error, entry := .onboarding, error := some boom }
      ∧ caughtError (.value "timeout") = JsError.create "timeout" :=
  ⟨(gate_failed_with_caught_error gateAtOnboarding rfl (.error boom)).2.1,
    ((gate_failed_with_caught_error gateAtOnboarding rfl (.value "timeout")).2.2.2.2.2.1
      "timeout" rfl).1⟩

/-- C10, as stated, fails: a gate that is `ready` with entry ONBOARDING and
is given a new resolver whose result is awaited is `loading` with
`error = null`, and its entry is still ONBOARDING, not HOME. -/
theorem gate_reissue_keeps_entry :
    gateAtOnboarding.state = { status := .ready, entry := .onboarding, error := none }
      ∧ (issue gateAtOnboarding asyncResolver).state
        = { status := .loading, entry := .onboarding, error := none }
      ∧ (issue gateAtOnboarding asyncResolver).state.entry ≠ .home := by
  decide

/-- C10, as amended: on construction the gate has status `loading`, entry
HOME and `error = null`; whenever a new resolver is issued whose result is
awaited, the gate has status `loading` and `error = null` until that
resolution completes, whatever its state was before, and its entry keeps the
value it had. -/
theorem gate_loading_on_issue (g : Gate) :
    Gate.initial.state = { status := .loading, entry := .home, error := none }
      ∧ (issue g (.returns .thenable)).state
        = { status := .loading, entry := g.state.entry, error := none }
      ∧ (issue g (.constant .thenable)).state
        = { status := .loading, entry := g.state.entry, error := none }
      ∧ (issue Gate.initial (.returns .thenable)).state
        = { status := .loading, entry := .home, error := none } :=
  ⟨rfl, rfl, rfl, rfl⟩

theorem issue_state_eq (g : Gate) (r : Resolver) :
    (issue g r).state
      = if g.mounted = true then
          match r with
          | .constant (.value v) => { status := .ready, entry := normalizeEntry v, error := none }
          | .returns (.value v) => { status := .ready, entry := normalizeEntry v, error := none }
          | .throws e =>
            { status := .error, entry := g.state.entry, error := some (caughtError e) }
          | _ => { status := .loading, entry := g.state.entry, error := none }
        else { status := .loading, entry := g.state.entry, error := none } := by
  have hflag := fresh_flag (g.cancelled.set (g.cancelled.length - 1) true)
  rw [List.length_set] at hflag
  rcases r with (_ | _) | (_ | _) | _ <;>
    by_cases hm : g.mounted = true <;>
    simp [issue, applyResolved, applyThrown, discarded, cleanup, hm, hflag]

theorem settle_state_eq (g : Gate) (token : Nat) (o : Settlement) :
    (settle g token o).state
      = if discarded g token = true then g.state
        else match o with
          | .fulfilled v => { status := .ready, entry := normalizeEntry v, error := g.state.error }
          | .rejected e =>
            { status := .error, entry := g.state.entry, error := some (caughtError e) } := by
  cases o <;> by_cases hd : discarded g token = true <;>
    simp [settle, applyResolved, applyThrown, hd]

theorem flag_set_stays (l : List Bool) (i t : Nat) (h : l[t]? = some true) :
    (l.set i true)[t]? = some true := by
  rw [List.getElem?_set]
  split_ifs with h1 h2
  · rfl
  · subst h1
    rw [List.getElem?_eq_none (not_lt.1 h2)] at h
    cases h
  · exact h

theorem step_keeps_flag (g : Gate) (e : GateEvent) (t : Nat)
    (h : g.cancelled[t]? = some true) : (step g e).cancelled[t]? = some true := by
  have hlt : t < (g.cancelled.set (g.cancelled.length - 1) true).length := by
    rw [List.length_set]
    exact (List.getElem?_eq_some_iff.1 h).1
  cases e with
  | issue r =>
    show (issue g r).cancelled[t]? = some true
    rw [(issue_cancelled g r).1, List.getElem?_append_left hlt]
    exact flag_set_stays _ _ _ h
  | settle token o =>
    show (settle g token o).cancelled[t]? = some true
    rw [(settle_cancelled g token o).1]
    exact h
  | unmount => exact flag_set_stays _ _ _ h

theorem run_keeps_flag (events : List GateEvent) (g : Gate) (t : Nat)
    (h : g.cancelled[t]? = some true) : (run g events).cancelled[t]? = some true := by
  induction events generalizing g with
  | nil => exact h
  | cons e rest ih => exact ih (step g e) (step_keeps_flag g e t h)

theorem superseded_flag_some (g : Gate) (a b : Resolver) :
    (issue (issue g a) b).cancelled[nextToken g]? = some true := by
  have hd := discarded_superseded g a b
  have hlt : nextToken g < (issue (issue g a) b).cancelled.length := by
    rw [(issue_cancelled (issue g a) b).1, (issue_cancelled g a).1]
    simp [nextToken]
  rw [List.getElem?_eq_getElem hlt]
  have hflags : (issue (issue g a) b).cancelled.getD (nextToken g) true = true := by
    unfold nextToken
    rw [(issue_cancelled (issue g a) b).1, (issue_cancelled g a).1]
    have h := superseded_flag (g.cancelled.set (g.cancelled.length - 1) true)
    rw [List.length_set] at h
    exact h
  rw [List.getD_eq_getElem?_getD, List.getElem?_eq_getElem hlt] at hflags
  simpa using hflags

/-- C4: when resolver A, whose result is awaited, is issued and resolver B is
issued before A completes, a completion of A, with a value or a failure, does
not change the gate at all, whether it arrives before or after the completion
of B or without it, or after any further events; the state is the one that B
alone determines: it equals the state of a gate in which A was never issued. -/
theorem superseded_completion_is_discarded (g : Gate) (a b : Resolver)
    (ha : a = .constant .thenable ∨ a = .returns .thenable) (late : Settlement) :
    settle (issue (issue g a) b) (nextToken g) late = issue (issue g a) b
      ∧ (issue (issue g a) b).state = (issue g b).state
      ∧ ∀ ob : Settlement,
          settle (settle (issue (issue g a) b) (nextToken g) late) (nextToken (issue g a)) ob
            = settle (issue (issue g a) b) (nextToken (issue g a)) ob
          ∧ settle (settle (issue (issue g a) b) (nextToken (issue g a)) ob) (nextToken g) late
            = settle (issue (issue g a) b) (nextToken (issue g a)) ob
          ∧ (settle (issue (issue g a) b) (nextToken (issue g a)) ob).state
            = (settle (issue g b) (nextToken g) ob).state
          ∧ ∀ events : List GateEvent,
              settle (run (issue (issue g a) b) events) (nextToken g) late
                = run (issue (issue g a) b) events := by
  have hstale := discarded_superseded g a b
  have hstate : (issue (issue g a) b).state = (issue g b).state := by
    rw [issue_state_eq, issue_state_eq g b, (issue_cancelled g a).2,
      issue_thenable_state g a ha]
  refine ⟨settle_discarded _ _ _ hstale, hstate, fun ob => ⟨?_, ?_, ?_, ?_⟩⟩
  · rw [settle_discarded _ _ late hstale]
  · apply settle_discarded
    unfold discarded at hstale ⊢
    rw [(settle_cancelled _ _ ob).1, (settle_cancelled _ _ ob).2]
    exact hstale
  · have h1 : discarded (issue (issue g a) b) (nextToken (issue g a))
        = discarded (issue g b) (nextToken g) := by
      unfold discarded nextToken
      rw [(issue_cancelled (issue g a) b).1, (issue_cancelled (issue g a) b).2,
        (issue_cancelled g b).1, (issue_cancelled g b).2, (issue_cancelled g a).2]
      have f1 := fresh_flag ((issue g a).cancelled.set ((issue g a).cancelled.length - 1) true)
      have f2 := fresh_flag (g.cancelled.set (g.cancelled.length - 1) true)
      rw [List.length_set] at f1 f2
      rw [f1, f2]
    rw [settle_state_eq, settle_state_eq (issue g b), h1, hstate]
  · intro events
    apply settle_discarded
    have hflag := run_keeps_flag events _ _ (superseded_flag_some g a b)
    simp [discarded, List.getD_eq_getElem?_getD, hflag]

theorem superseded_completion_is_discarded_witness :
    (settle (settle (issue (issue Gate.initial asyncResolver) asyncResolver)
        (nextToken (issue Gate.initial asyncResolver)) (.fulfilled (.str "home")))
        (nextToken Gate.initial) (.fulfilled (.str "auth"))).state
      = { status := .ready, entry := .home, error := none } :=
  (congrArg Gate.state
    ((superseded_completion_is_discarded Gate.initial asyncResolver asyncResolver (Or.inr rfl)
      (.fulfilled (.str "auth"))).2.2 (.fulfilled (.str "home"))).2.1).trans (by decide)

end CoreLayoutGate
